import Mathlib

/-!
# Verification of the blender-agent command server and dynamic skill registry

Shallow embedding of `src/blender_addon/__init__.py` (connection/dispatch
server, execution bridge) and `src/blender_addon/handlers/dynamic_skills.py`
(dynamic skill registry, statistics store, call graph), together with proofs
of the specified properties.

The persistent SQLite store is modelled as in-memory association lists, one
per table, each table keyed by its primary key.  Each registry operation in
the Python source opens a connection, performs its statements and commits
once at the end; an operation is therefore modelled as a pure state
transformer on the store, and the state after the operation is the committed
store.  Wall-clock durations (`elapsed_ms`) are inputs of the model, and the
`last_called`/`created_at` timestamp columns, which no verified property
mentions, are omitted from the rows.
-/

namespace BlenderAgent

/-- JSON values, as produced by `json.loads` / consumed by `json.dumps`.
Numbers are modelled as integers (all numbers appearing in the protocol's
envelopes are integral error codes and counters). -/
inductive Json where
  | null
  | bool (b : Bool)
  | num (n : Int)
  | str (s : String)
  | arr (elems : List Json)
  | obj (fields : List (String × Json))
deriving Repr

mutual

def Json.beq : Json → Json → Bool
  | .null, .null => true
  | .bool a, .bool b => a == b
  | .num a, .num b => a == b
  | .str a, .str b => a == b
  | .arr a, .arr b => Json.beqList a b
  | .obj a, .obj b => Json.beqFields a b
  | _, _ => false

def Json.beqList : List Json → List Json → Bool
  | [], [] => true
  | x :: xs, y :: ys => Json.beq x y && Json.beqList xs ys
  | _, _ => false

def Json.beqFields : List (String × Json) → List (String × Json) → Bool
  | [], [] => true
  | (k, x) :: xs, (l, y) :: ys => k == l && Json.beq x y && Json.beqFields xs ys
  | _, _ => false

end

instance : BEq Json := ⟨Json.beq⟩

/-- `dict.get(key)` on a decoded JSON object: `some` the value when the key is
present, `none` otherwise (and on non-objects, which the dispatcher never
feeds it on the paths verified here). -/
def jget : Json → String → Option Json
  | .obj fields, k => (fields.find? (fun p => p.1 == k)).map Prod.snd
  | _, _ => none

/-! ## Association-list model of the SQLite tables

Every table has a primary key, so each key occurs at most once and the
`UPDATE`/`DELETE ... WHERE key = ?` statements touch at most the first
matching row. -/

/-- `SELECT ... WHERE key = ?` returning at most one row. -/
def alookup {κ β : Type} [DecidableEq κ] (l : List (κ × β)) (k : κ) : Option β :=
  match l with
  | [] => none
  | (k', v) :: rest => if k' = k then some v else alookup rest k

/-- `INSERT ... ON CONFLICT(key) DO UPDATE`: insert `ins` when the key is
absent, rewrite the existing row with `upd` when it is present. -/
def aupsert {κ β : Type} [DecidableEq κ] (l : List (κ × β)) (k : κ) (ins : β)
    (upd : β → β) : List (κ × β) :=
  match l with
  | [] => [(k, ins)]
  | (k', v) :: rest =>
    if k' = k then (k', upd v) :: rest else (k', v) :: aupsert rest k ins upd

/-- `UPDATE ... WHERE key = ?`: rewrite the row when present, no-op when
absent (0 rows affected). -/
def aupdate {κ β : Type} [DecidableEq κ] (l : List (κ × β)) (k : κ)
    (upd : β → β) : List (κ × β) :=
  match l with
  | [] => []
  | (k', v) :: rest =>
    if k' = k then (k', upd v) :: rest else (k', v) :: aupdate rest k upd

/-- `DELETE FROM ... WHERE key = ?` on a primary-keyed table. -/
def aremove {κ β : Type} [DecidableEq κ] (l : List (κ × β)) (k : κ) :
    List (κ × β) :=
  match l with
  | [] => []
  | (k', v) :: rest => if k' = k then rest else (k', v) :: aremove rest k

/-! ## The three tables of `dynamic_skills.db` -/

/-- A row of `dynamic_skills` (the definition table), minus the `name` key and
the `created_at` timestamp.  `parameters` is stored by the source as
`json.dumps` text and re-parsed on read; the round trip is the identity, so
the model stores the JSON value directly. -/
structure SkillRow where
  category : String
  description : String
  parameters : Json
  code : String
  version : String
  call_count : Nat
deriving Repr

/-- A row of `skill_statistics`, minus the `name` key and the `last_called`
timestamp. -/
structure StatRow where
  is_core : Bool
  direct_calls : Nat
  indirect_calls : Nat
  total_time_ms : Nat
deriving Repr, DecidableEq

/-- The persistent registry store.  `db_exists` models whether the database
file exists on disk (several operations behave differently before the first
`init_db`). -/
structure RegistryState where
  db_exists : Bool
  dynamic_skills : List (String × SkillRow)
  skill_statistics : List (String × StatRow)
  skill_call_graph : List ((String × String) × Nat)
deriving Repr

/-- `init_db`: creates the database file and its tables when missing; the
tables' contents are untouched (`CREATE TABLE IF NOT EXISTS`). -/
def init_db (st : RegistryState) : RegistryState :=
  { st with db_exists := true }

/-! ## Dynamic skill registry operations (`handlers/dynamic_skills.py`) -/

/-- The dict returned by `get_dynamic_skill` (the skill definition handed to
`execute_dynamic_skill`). -/
structure Skill where
  name : String
  category : String
  description : String
  parameters : Json
  code : String
  version : String
deriving Repr

/-- `get_dynamic_skill(name)`: `None` when the database file does not exist
or no row matches; otherwise the definition row, with the stored
`parameters` text re-parsed (`json.loads(row[3]) if row[3] else {}` — the
stored text is never empty since `register` always writes `json.dumps`
output, so this is the stored value). Read-only. -/
def get_dynamic_skill (st : RegistryState) (name : String) : Option Skill :=
  if !st.db_exists then none
  else match alookup st.dynamic_skills name with
    | none => none
    | some r => some ⟨name, r.category, r.description, r.parameters, r.code, r.version⟩

/-- Semantics of `exec(code, namespace)` on a dynamic skill's stored source:
given the code text and the injected `params`, either an exception
(propagated as its message string) or the value bound to `result` in the
namespace afterwards — `none` when the code left `result` unbound or `None`.
Arbitrary Python execution is not embeddable, so theorems quantify over
this oracle. -/
abbrev ExecSem := String → Json → Except String (Option Json)

/-- The generic success marker substituted when skill code binds no
`result` (`dynamic_skills.py` lines 121-123). -/
def genericSuccess : Json := Json.obj [("success", Json.bool true)]

/-- `execute_dynamic_skill(skill, params, caller)` (lines 95-171).

`exec(code, namespace)` runs first (line 118), before any statistics
statement; an exception raised there propagates immediately, leaving the
store untouched.  On normal return the operation, in one connection
committed once:
 1. `UPDATE dynamic_skills SET call_count = call_count + 1` (no-op when the
    definition row is gone),
 2. upserts the `skill_statistics` row — direct when `caller is None`,
    indirect otherwise — adding `elapsed_ms`,
 3. when `caller` is truthy (non-`None` and non-empty), upserts the call
    graph edge `(caller, skill.name)`.
Returns the bound `result`, or the generic success marker when it is
`None`. -/
def execute_dynamic_skill (execSem : ExecSem) (skill : Skill) (params : Json)
    (caller : Option String) (elapsed_ms : Nat) (st : RegistryState) :
    Except String Json × RegistryState :=
  match execSem skill.code params with
  | .error e => (.error e, st)
  | .ok r =>
    let result := r.getD genericSuccess
    let skills' := aupdate st.dynamic_skills skill.name
      (fun row => { row with call_count := row.call_count + 1 })
    let is_direct := caller.isNone
    let stats' := aupsert st.skill_statistics skill.name
      ⟨false, if is_direct then 1 else 0, if is_direct then 0 else 1, elapsed_ms⟩
      (fun row => { row with
        direct_calls := row.direct_calls + (if is_direct then 1 else 0),
        indirect_calls := row.indirect_calls + (if is_direct then 0 else 1),
        total_time_ms := row.total_time_ms + elapsed_ms })
    let graph' := match caller with
      | some c =>
        if c = "" then st.skill_call_graph
        else aupsert st.skill_call_graph (c, skill.name) 1 (fun n => n + 1)
      | none => st.skill_call_graph
    (.ok result,
     { st with dynamic_skills := skills', skill_statistics := stats',
               skill_call_graph := graph' })

/-- The `params` dict accepted by `handle_register_skill`; `none` models an
absent key (`params.get(key, default)`). -/
structure RegisterParams where
  name : Option String
  category : Option String
  description : Option String
  parameters : Option Json
  code : Option String
  version : Option String
deriving Repr

/-- The category enum accepted by `handle_register_skill`. -/
def validCategories : List String := ["simple", "standard", "inspect", "primitive"]

/-- `handle_register_skill(params)` (lines 205-256): defaults
`category="standard"`, `description=""`, `parameters={}`, `version="1.0.0"`;
rejects falsy (absent or empty) `name`/`code` and an invalid category;
then `INSERT OR REPLACE` keyed by `name`, the new row's `call_count` taken
from the existing row via `COALESCE((SELECT call_count ...), 0)`. -/
def handle_register_skill (p : RegisterParams) (st : RegistryState) :
    Except String (Json × RegistryState) :=
  let name := p.name.getD ""
  let category := p.category.getD "standard"
  let description := p.description.getD ""
  let skill_params := p.parameters.getD (Json.obj [])
  let code := p.code.getD ""
  let version := p.version.getD "1.0.0"
  if name = "" then .error "Skill name is required"
  else if code = "" then .error "Skill code is required"
  else if category ∉ validCategories then .error ("Invalid category: " ++ category)
  else
    let st := init_db st
    let prior_count := ((alookup st.dynamic_skills name).map SkillRow.call_count).getD 0
    let row : SkillRow := ⟨category, description, skill_params, code, version, prior_count⟩
    .ok (Json.obj [("success", Json.bool true), ("name", Json.str name),
                   ("category", Json.str category), ("version", Json.str version),
                   ("message", Json.str ("Skill \x27" ++ name ++ "\x27 registered"))],
         { st with dynamic_skills := aupsert st.dynamic_skills name row (fun _ => row) })

/-- `handle_unregister_skill(params)` (lines 311-342): rejects a falsy name;
raises Not Found when the database file is missing or the `DELETE` touched
no row; otherwise deletes exactly the definition row. -/
def handle_unregister_skill (name? : Option String) (st : RegistryState) :
    Except String (Json × RegistryState) :=
  let name := name?.getD ""
  if name = "" then .error "Skill name is required"
  else if !st.db_exists then .error ("Skill not found: " ++ name)
  else match alookup st.dynamic_skills name with
    | none => .error ("Skill not found: " ++ name)
    | some _ =>
      .ok (Json.obj [("success", Json.bool true), ("name", Json.str name),
                     ("message", Json.str ("Skill \x27" ++ name ++ "\x27 unregistered"))],
           { st with dynamic_skills := aremove st.dynamic_skills name })

/-- `track_core_handler_call(name, elapsed_ms)` (lines 462-482): upsert of
the statistics row as a direct call; the conflict branch does not touch
`is_core` or `indirect_calls`. -/
def track_core_handler_call (name : String) (elapsed_ms : Nat)
    (st : RegistryState) : RegistryState :=
  let st := init_db st
  let stats' := aupsert st.skill_statistics name
    ⟨true, 1, 0, elapsed_ms⟩
    (fun row => { row with
      direct_calls := row.direct_calls + 1,
      total_time_ms := row.total_time_ms + elapsed_ms })
  { st with skill_statistics := stats' }

/-- `track_indirect_handler_call(name, caller, elapsed_ms)` (lines 485-519):
first the statistics upsert for the callee as an indirect call, then the
call-graph edge upsert `(caller, name)`, committed together. -/
def track_indirect_handler_call (name : String) (caller : String)
    (elapsed_ms : Nat) (st : RegistryState) : RegistryState :=
  let st := init_db st
  let stats' := aupsert st.skill_statistics name
    ⟨true, 0, 1, elapsed_ms⟩
    (fun row => { row with
      indirect_calls := row.indirect_calls + 1,
      total_time_ms := row.total_time_ms + elapsed_ms })
  let graph' := aupsert st.skill_call_graph (caller, name) 1 (fun n => n + 1)
  { st with skill_statistics := stats', skill_call_graph := graph' }

/-- `register_core_handlers(handler_names)` (lines 442-459): `INSERT OR
IGNORE` of a zeroed statistics row per static handler name. -/
def register_core_handlers (names : List String) (st : RegistryState) :
    RegistryState :=
  let st := init_db st
  let stats' := names.foldl
    (fun stats n =>
      if (alookup stats n).isSome then stats
      else stats ++ [(n, ⟨true, 0, 0, 0⟩)])
    st.skill_statistics
  { st with skill_statistics := stats' }

/-! ## Read-only projections -/

/-- A row of `handle_get_skill_statistics`'s reply. -/
structure StatEntry where
  name : String
  is_core : Bool
  direct_calls : Nat
  indirect_calls : Nat
  total_calls : Nat
  total_time_ms : Nat
deriving Repr, DecidableEq

/-- Stable insertion into a list sorted descending by `key`, modelling the
store's `ORDER BY ... DESC`. -/
def insertDescBy {α : Type} (key : α → Nat) (x : α) : List α → List α
  | [] => [x]
  | y :: ys => if key y < key x then x :: y :: ys else y :: insertDescBy key x ys

/-- Sort descending by `key` (`ORDER BY key DESC`). -/
def sortDescBy {α : Type} (key : α → Nat) (l : List α) : List α :=
  l.foldr (insertDescBy key) []

/-- `handle_get_skill_statistics(params)` (lines 345-391): with a truthy
`name` filter, the matching rows; otherwise all rows ordered by
`direct_calls + indirect_calls` descending.  Read-only (its `init_db` only
ensures the tables exist). -/
def handle_get_skill_statistics (name_filter : Option String)
    (st : RegistryState) : List StatEntry :=
  let total : String × StatRow → Nat := fun p =>
    p.2.direct_calls + p.2.indirect_calls
  let rows := match name_filter with
    | some n =>
      if n = "" then sortDescBy total st.skill_statistics
      else st.skill_statistics.filter (fun p => p.1 == n)
    | none => sortDescBy total st.skill_statistics
  rows.map (fun p =>
    ⟨p.1, p.2.is_core, p.2.direct_calls, p.2.indirect_calls,
     p.2.direct_calls + p.2.indirect_calls, p.2.total_time_ms⟩)

/-- A row of `handle_get_call_graph`'s reply. -/
structure EdgeEntry where
  caller : String
  callee : String
  call_count : Nat
deriving Repr, DecidableEq

/-- `handle_get_call_graph(params)` (lines 394-439): edges, filtered by the
truthy `caller`/`callee` filters, ordered by `call_count` descending.
Read-only. -/
def handle_get_call_graph (caller_filter callee_filter : Option String)
    (st : RegistryState) : List EdgeEntry :=
  let truthy : Option String → Option String := fun f =>
    match f with
    | some s => if s = "" then none else some s
    | none => none
  let passes : ((String × String) × Nat) → Bool := fun e =>
    (match truthy caller_filter with | some c => e.1.1 == c | none => true) &&
    (match truthy callee_filter with | some c => e.1.2 == c | none => true)
  (sortDescBy (fun e => e.2) (st.skill_call_graph.filter passes)).map
    (fun e => ⟨e.1.1, e.1.2, e.2⟩)

/-! ## Connection/dispatch server (`__init__.py`) -/

/-- The static handler table's keys, exactly as registered by
`BlenderAgentServer._register_handlers` (lines 48-124).  The callables
themselves are opaque host-state mutators; resolution only consults the
keys. -/
def handlerNames : List String :=
  ["ping", "get_scene_info", "create_object", "delete_object",
   "transform_object", "set_material", "render", "get_blender_version",
   "get_extension_version", "save_file", "set_viewport", "quit_blender",
   "new_file", "show_status", "open_file", "duplicate_object",
   "set_mode", "select_mesh_elements", "extrude", "loop_cut", "bevel",
   "inset", "add_modifier", "apply_modifier", "delete_faces",
   "get_mesh_info", "shade_smooth", "get_selection_info",
   "select_boundary_faces", "grow_selection", "shrink_selection",
   "move_selection", "snap_to_mesh", "find_inside_mesh",
   "add_selection_noise", "mark_seam", "clear_seam", "unwrap",
   "project_from_view", "create_armature", "add_bone",
   "parent_to_armature", "set_bone_parent", "create_material",
   "assign_material", "set_material_color", "set_material_property",
   "add_image_texture", "create_light", "set_light_property",
   "set_world_color", "set_render_engine", "configure_render",
   "render_image", "create_camera", "set_camera_position", "frame_object",
   "reset_viewport", "set_viewport_shading", "set_viewport_view",
   "render_product_views", "register_skill", "list_skills",
   "unregister_skill", "get_skill_statistics", "get_call_graph"]

/-- The JSON-RPC error envelope (`{"jsonrpc": "2.0", "id": ..., "error":
{"code": ..., "message": ...}}`). -/
def mkErrorResponse (id : Json) (code : Int) (message : String) : Json :=
  Json.obj [("jsonrpc", Json.str "2.0"), ("id", id),
            ("error", Json.obj [("code", Json.num code),
                                ("message", Json.str message)])]

/-- The JSON-RPC success envelope (`{"jsonrpc": "2.0", "id": ...,
"result": ...}`). -/
def mkResultResponse (id : Json) (result : Json) : Json :=
  Json.obj [("jsonrpc", Json.str "2.0"), ("id", id), ("result", result)]

/-- `response["error"]["code"]`, when the response is an error envelope. -/
def errorCodeOf (resp : Json) : Option Int :=
  match jget resp "error" with
  | some e =>
    match jget e "code" with
    | some (.num c) => some c
    | _ => none
  | _ => none

/-- The task `_process_request` packages for `bpy.app.timers.register`:
either a static handler call or a dynamic skill execution. -/
inductive TaskSpec where
  | core (method : String) (params : Json)
  | dynamic (skill : Skill) (params : Json)
deriving Repr

/-- What `_process_request` did before any waiting: answered immediately
(parse error, invalid request, method not found — no task was ever enqueued
on the host scheduler), or enqueued a task and began the bounded wait. -/
inductive ProcessOutcome where
  | immediate (response : Json)
  | dispatched (request_id : Json) (task : TaskSpec)
deriving Repr

/-- `BlenderAgentServer._process_request(request_line)` (lines 203-258) up to
the point where a task is enqueued.  `parse` is the `json.loads` oracle
(`none` = `JSONDecodeError`).  The registry state is threaded through to
record that resolution itself performs no write (`get_dynamic_skill` is a
bare `SELECT`).  A non-object request or a non-string `method` never
resolves to a handler and falls through to Method Not Found, as in the
source for every input a client can produce on the verified paths. -/
def process_request (parse : String → Option Json) (request_line : String)
    (st : RegistryState) : ProcessOutcome × RegistryState :=
  match parse request_line with
  | none => (.immediate (mkErrorResponse Json.null (-32700) "Parse error"), st)
  | some request =>
    match jget request "method" with
    | none =>
      (.immediate (mkErrorResponse ((jget request "id").getD Json.null)
        (-32600) "Invalid request"), st)
    | some methodJ =>
      let params := (jget request "params").getD (Json.obj [])
      let request_id := (jget request "id").getD Json.null
      match methodJ with
      | .str m =>
        if m ∈ handlerNames then (.dispatched request_id (.core m params), st)
        else
          match get_dynamic_skill st m with
          | some skill => (.dispatched request_id (.dynamic skill params), st)
          | none =>
            (.immediate (mkErrorResponse request_id (-32601)
              ("Method not found: " ++ m)), st)
      | _ =>
        (.immediate (mkErrorResponse request_id (-32601) "Method not found"), st)

/-- The response the network thread assembles after `done_event.wait(timeout
=30.0)` returns (lines 250-253), from whatever `error_container[0]` and
`result_container[0]` hold at that instant — whether the task finished,
is still running, or never ran.  The error slot is tested for Python
truthiness (`if error_container[0]:`), so `None` and `""` both fall through
to the success envelope; a `None` result serializes as JSON `null`. -/
def respond_after_wait (request_id : Json) (errSlot : Option String)
    (resSlot : Option Json) : Json :=
  match errSlot with
  | some msg =>
    if msg = "" then mkResultResponse request_id (resSlot.getD Json.null)
    else mkErrorResponse request_id (-32603) msg
  | none => mkResultResponse request_id (resSlot.getD Json.null)

/-- Truthiness of `line.strip()`: `strip()` (which removes leading and
trailing whitespace) is non-empty exactly when some character of the line
is not whitespace. -/
def hasContent (line : String) : Bool :=
  line.data.any (fun c => !c.isWhitespace)

/-- `_handle_client`'s inner framing loop (lines 193-197) over the complete
lines recovered from the buffer: a line whose `strip()` is empty is skipped
with no response; every other line is processed against the current state
and produces exactly one response, in order. `process` abstracts one full
request cycle (dispatch, bridge wait, response assembly). -/
def handle_lines {σ : Type} (process : String → σ → Json × σ) :
    List String → σ → List Json × σ
  | [], st => ([], st)
  | line :: rest, st =>
    if hasContent line then
      let r := process line st
      let rr := handle_lines process rest r.2
      (r.1 :: rr.1, rr.2)
    else handle_lines process rest st

/-- One full request/response cycle for one received line, as
`_handle_client` performs it: `_process_request` resolves and — when a task
was dispatched — enqueues it, waits, and assembles the response; `bridge`
abstracts that enqueue/wait/assemble step (which may run handler code and
mutate the registry). -/
def process_line (parse : String → Option Json)
    (bridge : Json → TaskSpec → RegistryState → Json × RegistryState)
    (line : String) (st : RegistryState) : Json × RegistryState :=
  match process_request parse line st with
  | (.immediate resp, st') => (resp, st')
  | (.dispatched rid task, st') => bridge rid task st'

/-- The slot contents `execute_in_main` (lines 230-245) leaves once the task
has run: on an exception the error slot receives `str(e)`, otherwise the
result slot receives the handler's return value (`none` models a handler
that returned `None`, i.e. succeeded with no output). -/
def slots_after_task (outcome : Except String (Option Json)) :
    Option String × Option Json :=
  match outcome with
  | .error e => (some e, none)
  | .ok r => (none, r)

/-! ## Store lemmas -/

theorem alookup_aupsert_self {κ β : Type} [DecidableEq κ] (l : List (κ × β))
    (k : κ) (ins : β) (upd : β → β) :
    alookup (aupsert l k ins upd) k = some ((alookup l k).elim ins upd) := by
  induction l with
  | nil => simp [aupsert, alookup]
  | cons hd tl ih =>
    obtain ⟨a, v⟩ := hd
    by_cases h : a = k
    · subst h; simp [aupsert, alookup]
    · simp [aupsert, alookup, h, ih]

theorem alookup_aupsert_ne {κ β : Type} [DecidableEq κ] (l : List (κ × β))
    (k k' : κ) (ins : β) (upd : β → β) (h : k' ≠ k) :
    alookup (aupsert l k ins upd) k' = alookup l k' := by
  have h' : ¬(k = k') := fun hh => h hh.symm
  induction l with
  | nil => simp [aupsert, alookup, h']
  | cons hd tl ih =>
    obtain ⟨a, v⟩ := hd
    by_cases ha : a = k
    · subst ha
      simp [aupsert, alookup, h']
    · by_cases ha' : a = k'
      · subst ha'; simp [aupsert, alookup, ha]
      · simp [aupsert, alookup, ha, ha', ih]

theorem isSome_alookup_aupsert {κ β : Type} [DecidableEq κ]
    (l : List (κ × β)) (k k' : κ) (ins : β) (upd : β → β)
    (h : (alookup l k').isSome = true) :
    (alookup (aupsert l k ins upd) k').isSome = true := by
  by_cases hk : k' = k
  · subst hk; simp [alookup_aupsert_self]
  · rw [alookup_aupsert_ne l k k' ins upd hk]; exact h

theorem isSome_alookup_aupsert_key {κ β : Type} [DecidableEq κ]
    (l : List (κ × β)) (k : κ) (ins : β) (upd : β → β) :
    (alookup (aupsert l k ins upd) k).isSome = true := by
  simp [alookup_aupsert_self]

theorem mem_aupsert {κ β : Type} [DecidableEq κ] {l : List (κ × β)}
    {k : κ} {ins : β} {upd : β → β} {x : κ × β}
    (h : x ∈ aupsert l k ins upd) : x.1 = k ∨ x ∈ l := by
  induction l with
  | nil =>
    simp [aupsert] at h
    subst h; exact Or.inl rfl
  | cons hd tl ih =>
    obtain ⟨a, v⟩ := hd
    by_cases ha : a = k
    · subst ha
      simp [aupsert] at h
      rcases h with h | h
      · exact Or.inl (by simp [h])
      · exact Or.inr (List.mem_cons_of_mem _ h)
    · simp [aupsert, ha] at h
      rcases h with h | h
      · exact Or.inr (by simp [h])
      · rcases ih h with h' | h'
        · exact Or.inl h'
        · exact Or.inr (List.mem_cons_of_mem _ h')

/-! ## Registry operation traces (for the statistics/call-graph invariant)

A trace interleaves the three operations that increment statistics rows:
dynamic skill executions, direct core-handler tracking, and indirect
tracking. -/

/-- One registry operation of the instrumented kind. -/
inductive RegOp where
  | execSkill (skill : Skill) (params : Json) (caller : Option String) (elapsed_ms : Nat)
  | trackCore (name : String) (elapsed_ms : Nat)
  | trackIndirect (name : String) (caller : String) (elapsed_ms : Nat)

/-- The committed store after one operation. -/
def applyOp (execSem : ExecSem) (st : RegistryState) : RegOp → RegistryState
  | .execSkill skill params caller elapsed =>
    (execute_dynamic_skill execSem skill params caller elapsed st).2
  | .trackCore name elapsed => track_core_handler_call name elapsed st
  | .trackIndirect name caller elapsed =>
    track_indirect_handler_call name caller elapsed st

/-- The committed store after a whole trace, run left to right. -/
def applyOps (execSem : ExecSem) (ops : List RegOp) (st : RegistryState) :
    RegistryState :=
  match ops with
  | [] => st
  | op :: rest => applyOps execSem rest (applyOp execSem st op)

/-- Whether one operation increments `name`'s statistics row: a skill
execution increments its own row only when the code does not raise; the
tracking entry points always increment the callee's row. -/
def opIncrements (execSem : ExecSem) (op : RegOp) (name : String) : Nat :=
  match op with
  | .execSkill skill params _ _ =>
    match execSem skill.code params with
    | .ok _ => if skill.name = name then 1 else 0
    | .error _ => 0
  | .trackCore n _ => if n = name then 1 else 0
  | .trackIndirect n _ _ => if n = name then 1 else 0

/-- How many operations of a trace increment `name`'s statistics row. -/
def traceIncrements (execSem : ExecSem) (ops : List RegOp) (name : String) :
    Nat :=
  match ops with
  | [] => 0
  | op :: rest => opIncrements execSem op name + traceIncrements execSem rest name

/-- `direct_calls + indirect_calls` of a statistics table's row (0 when the
row is absent). -/
def countIn (stats : List (String × StatRow)) (name : String) : Nat :=
  match alookup stats name with
  | some r => r.direct_calls + r.indirect_calls
  | none => 0

/-- `direct_calls + indirect_calls` of the store's row for `name`. -/
def statCount (st : RegistryState) (name : String) : Nat :=
  countIn st.skill_statistics name

/-- Every call-graph edge's callee has a statistics row in the committed
store. -/
def calleeHasStats (st : RegistryState) : Bool :=
  st.skill_call_graph.all (fun e => (alookup st.skill_statistics e.1.2).isSome)

theorem countIn_aupsert (stats : List (String × StatRow)) (k name : String)
    (ins : StatRow) (upd : StatRow → StatRow)
    (hins : ins.direct_calls + ins.indirect_calls = 1)
    (hupd : ∀ r, (upd r).direct_calls + (upd r).indirect_calls
      = r.direct_calls + r.indirect_calls + 1) :
    countIn (aupsert stats k ins upd) name
      = countIn stats name + (if k = name then 1 else 0) := by
  by_cases h : name = k
  · subst h
    rw [countIn, alookup_aupsert_self]
    cases hl : alookup stats name with
    | none => simp [countIn, hl, hins]
    | some r => simp [countIn, hl, hupd r]
  · have h' : ¬(k = name) := fun hh => h hh.symm
    rw [countIn, alookup_aupsert_ne stats k name ins upd h, ← countIn]
    simp [h']

theorem statCount_applyOp (execSem : ExecSem) (st : RegistryState)
    (op : RegOp) (name : String) :
    statCount (applyOp execSem st op) name
      = statCount st name + opIncrements execSem op name := by
  cases op with
  | execSkill skill params caller elapsed =>
    cases hx : execSem skill.code params with
    | error e =>
      simp [applyOp, execute_dynamic_skill, hx, opIncrements, statCount]
    | ok r =>
      simp only [applyOp, execute_dynamic_skill, hx, statCount, opIncrements]
      rw [countIn_aupsert]
      · cases caller <;> simp
      · intro s; cases caller <;> simp <;> omega
  | trackCore n elapsed =>
    simp only [applyOp, track_core_handler_call, init_db, statCount, opIncrements]
    rw [countIn_aupsert]
    · simp
    · intro s; simp; omega
  | trackIndirect n c elapsed =>
    simp only [applyOp, track_indirect_handler_call, init_db, statCount, opIncrements]
    rw [countIn_aupsert]
    · simp
    · intro s; simp; omega

theorem calleeHasStats_applyOp (execSem : ExecSem) (st : RegistryState)
    (op : RegOp) (h : calleeHasStats st = true) :
    calleeHasStats (applyOp execSem st op) = true := by
  cases op with
  | execSkill skill params caller elapsed =>
    cases hx : execSem skill.code params with
    | error e =>
      simpa [applyOp, execute_dynamic_skill, hx, calleeHasStats] using h
    | ok r =>
      simp only [calleeHasStats, List.all_eq_true] at h
      simp only [applyOp, execute_dynamic_skill, hx, calleeHasStats,
        List.all_eq_true]
      intro e he
      cases caller with
      | none =>
        exact isSome_alookup_aupsert _ _ _ _ _ (h e he)
      | some c =>
        by_cases hc : c = ""
        · simp only [hc, if_pos rfl] at he
          exact isSome_alookup_aupsert _ _ _ _ _ (h e he)
        · simp only [if_neg hc] at he
          rcases mem_aupsert he with h1 | h1
          · have : e.1.2 = skill.name := by rw [h1]
            rw [this]
            exact isSome_alookup_aupsert_key _ _ _ _
          · exact isSome_alookup_aupsert _ _ _ _ _ (h e h1)
  | trackCore n elapsed =>
    simp only [calleeHasStats, List.all_eq_true] at h
    simp only [applyOp, track_core_handler_call, init_db, calleeHasStats,
      List.all_eq_true]
    intro e he
    exact isSome_alookup_aupsert _ _ _ _ _ (h e he)
  | trackIndirect n c elapsed =>
    simp only [calleeHasStats, List.all_eq_true] at h
    simp only [applyOp, track_indirect_handler_call, init_db, calleeHasStats,
      List.all_eq_true]
    intro e he
    rcases mem_aupsert he with h1 | h1
    · have : e.1.2 = n := by rw [h1]
      rw [this]
      exact isSome_alookup_aupsert_key _ _ _ _
    · exact isSome_alookup_aupsert _ _ _ _ _ (h e h1)

theorem statCount_applyOps (execSem : ExecSem) (ops : List RegOp)
    (st : RegistryState) (name : String) :
    statCount (applyOps execSem ops st) name
      = statCount st name + traceIncrements execSem ops name := by
  induction ops generalizing st with
  | nil => simp [applyOps, traceIncrements]
  | cons op rest ih =>
    simp only [applyOps, traceIncrements]
    rw [ih, statCount_applyOp]
    omega

theorem calleeHasStats_applyOps (execSem : ExecSem) (ops : List RegOp)
    (st : RegistryState) (h : calleeHasStats st = true) :
    calleeHasStats (applyOps execSem ops st) = true := by
  induction ops generalizing st with
  | nil => simpa [applyOps] using h
  | cons op rest ih => exact ih _ (calleeHasStats_applyOp execSem st op h)

/-! ## Claim theorems -/

/-- Execution oracle under which the code text `"raise Exception"` raises
with message `"boom"` and any other code binds no result. -/
def raisingSem : ExecSem := fun code _ =>
  if code = "raise Exception" then .error "boom" else .ok none

/-- A store holding one registered skill whose code raises, with a zeroed
statistics row for it. -/
def raisingStore : RegistryState :=
  ⟨true,
   [("boomer", ⟨"standard", "", Json.obj [], "raise Exception", "1.0.0", 0⟩)],
   [("boomer", ⟨false, 0, 0, 0⟩)],
   []⟩

/-- The skill definition `get_dynamic_skill` yields for `"boomer"` in
`raisingStore`. -/
def raisingSkill : Skill :=
  ⟨"boomer", "standard", "", Json.obj [], "raise Exception", "1.0.0"⟩

/-- C1, counterexample: executing a dynamic skill whose code raises
propagates the exception, but the committed store — including the skill's
statistics row, still `⟨false, 0, 0, 0⟩` — is left exactly as it was: no
call is counted and no elapsed time is charged, contradicting the claim
that the statistics are still updated on failure.  In the source,
`exec(code, namespace)` (line 118) runs before every statistics statement
(lines 126-169) and is not wrapped in `try`/`finally`. -/
theorem execute_raise_statistics_not_updated :
    (execute_dynamic_skill raisingSem raisingSkill (Json.obj []) none 7
      raisingStore).1 = .error "boom"
    ∧ (execute_dynamic_skill raisingSem raisingSkill (Json.obj []) none 7
        raisingStore).2 = raisingStore
    ∧ alookup (execute_dynamic_skill raisingSem raisingSkill (Json.obj [])
        none 7 raisingStore).2.skill_statistics "boomer"
          = some ⟨false, 0, 0, 0⟩ :=
  ⟨rfl, rfl, rfl⟩

/-- C1 (amended): when a dynamic skill's code raises during
`execute_dynamic_skill`, the exception propagates as the execution error,
and the registry state — hence every statistics row — is returned
unchanged: call counts and elapsed time are charged only after a
successful `exec`. -/
theorem execute_raise_propagates_uncharged
    (execSem : ExecSem) (skill : Skill) (params : Json)
    (caller : Option String) (elapsed_ms : Nat) (st : RegistryState)
    (e : String) (h : execSem skill.code params = .error e) :
    execute_dynamic_skill execSem skill params caller elapsed_ms st
      = (.error e, st) := by
  simp [execute_dynamic_skill, h]

/-- Witness for the amended C1 at the concrete raising skill. -/
theorem execute_raise_propagates_uncharged_witness :
    raisingSem raisingSkill.code (Json.obj []) = .error "boom"
    ∧ execute_dynamic_skill raisingSem raisingSkill (Json.obj []) none 7
        raisingStore = (.error "boom", raisingStore) :=
  ⟨rfl, execute_raise_propagates_uncharged raisingSem raisingSkill
    (Json.obj []) none 7 raisingStore "boom" rfl⟩

/-- C2: when the 30-second bound elapses before the enqueued task signals
completion, the response is assembled from whatever the error/result slots
hold at that moment; with both slots still empty it is the success
envelope `{"jsonrpc": "2.0", "id": ..., "result": null}` — the very same
response produced for a task that completed with a handler returning no
output. -/
theorem timeout_empty_slots_null_success (request_id : Json) :
    respond_after_wait request_id none none
        = mkResultResponse request_id Json.null
    ∧ respond_after_wait request_id (slots_after_task (.ok none)).1
          (slots_after_task (.ok none)).2
        = respond_after_wait request_id none none :=
  ⟨rfl, rfl⟩

/-- C3: over every trace of the instrumented registry operations
(`execute_dynamic_skill`, `track_core_handler_call`,
`track_indirect_handler_call`), each statistics row's
`direct_calls + indirect_calls` equals its starting value plus the number
of operations that incremented that row, and — provided it held at the
start, as it does in the empty store — every call-graph edge's callee has
a statistics row in the committed store, because each operation upserts
the callee's statistics row before its edge within one commit. -/
theorem registry_trace_invariant (execSem : ExecSem) (ops : List RegOp)
    (st : RegistryState) (name : String) (h : calleeHasStats st = true) :
    statCount (applyOps execSem ops st) name
        = statCount st name + traceIncrements execSem ops name
    ∧ calleeHasStats (applyOps execSem ops st) = true :=
  ⟨statCount_applyOps execSem ops st name,
   calleeHasStats_applyOps execSem ops st h⟩

/-- Execution oracle for the C3 witness trace: every code text succeeds
binding no result. -/
def alwaysOkSem : ExecSem := fun _ _ => .ok none

/-- A three-operation witness trace: a direct core call to `"ping"`, an
indirect execution of the raising-free `"boomer"` skill called by
`"ping"`, and an indirect core call `"ping" → "render"`. -/
def traceOps : List RegOp :=
  [.trackCore "ping" 2,
   .execSkill ⟨"boomer", "standard", "", Json.obj [], "result = 1", "1.0.0"⟩
     (Json.obj []) (some "ping") 3,
   .trackIndirect "render" "ping" 4]

/-- Witness for C3 on the concrete trace from the empty store. -/
theorem registry_trace_invariant_witness :
    calleeHasStats ⟨true, [], [], []⟩ = true
    ∧ (statCount (applyOps alwaysOkSem traceOps ⟨true, [], [], []⟩) "boomer"
          = statCount ⟨true, [], [], []⟩ "boomer"
            + traceIncrements alwaysOkSem traceOps "boomer"
       ∧ calleeHasStats (applyOps alwaysOkSem traceOps ⟨true, [], [], []⟩)
          = true) :=
  ⟨by decide,
   registry_trace_invariant alwaysOkSem traceOps ⟨true, [], [], []⟩ "boomer"
     (by decide)⟩

/-- C4: `handle_register_skill` upserts by name — the stored definition
fields are replaced by the newly supplied ones, while the row's
`call_count` is the prior row's counter when one existed and 0 for a fresh
name (`COALESCE((SELECT call_count ...), 0)`). -/
theorem register_upsert_preserves_call_count
    (p : RegisterParams) (st : RegistryState) (n c : String)
    (hn : p.name = some n) (hne : n ≠ "")
    (hc : p.code = some c) (hce : c ≠ "")
    (hcat : p.category.getD "standard" ∈ validCategories) :
    ∃ resp st', handle_register_skill p st = .ok (resp, st')
      ∧ alookup st'.dynamic_skills n = some
          ⟨p.category.getD "standard", p.description.getD "",
           p.parameters.getD (Json.obj []), c, p.version.getD "1.0.0",
           ((alookup st.dynamic_skills n).map SkillRow.call_count).getD 0⟩ := by
  refine ⟨Json.obj [("success", Json.bool true), ("name", Json.str n),
      ("category", Json.str (p.category.getD "standard")),
      ("version", Json.str (p.version.getD "1.0.0")),
      ("message", Json.str ("Skill \x27" ++ n ++ "\x27 registered"))],
    { st with
      db_exists := true,
      dynamic_skills := (aupsert st.dynamic_skills n
        ⟨p.category.getD "standard", p.description.getD "",
         p.parameters.getD (Json.obj []), c, p.version.getD "1.0.0",
         ((alookup st.dynamic_skills n).map SkillRow.call_count).getD 0⟩
        (fun _ =>
          ⟨p.category.getD "standard", p.description.getD "",
           p.parameters.getD (Json.obj []), c, p.version.getD "1.0.0",
           ((alookup st.dynamic_skills n).map SkillRow.call_count).getD 0⟩)) },
    ?_, ?_⟩
  · simp only [handle_register_skill, hn, hc, Option.getD_some]
    rw [if_neg hne, if_neg hce, if_neg (not_not_intro hcat)]
    rfl
  · rw [alookup_aupsert_self]
    cases alookup st.dynamic_skills n <;> rfl

/-- Witness for C4: re-registering `"echo"` (prior `call_count` 5) with new
fields keeps the counter at 5. -/
theorem register_upsert_preserves_call_count_witness :
    ∃ resp st',
      handle_register_skill
        ⟨some "echo", some "simple", some "new description",
         some (Json.obj []), some "result = 2", some "2.0.0"⟩
        ⟨true,
         [("echo", ⟨"standard", "old", Json.obj [], "result = 1", "1.0.0", 5⟩)],
         [], []⟩
        = .ok (resp, st')
      ∧ alookup st'.dynamic_skills "echo" = some
          ⟨"simple", "new description", Json.obj [], "result = 2", "2.0.0", 5⟩ :=
  register_upsert_preserves_call_count
    ⟨some "echo", some "simple", some "new description",
     some (Json.obj []), some "result = 2", some "2.0.0"⟩
    ⟨true,
     [("echo", ⟨"standard", "old", Json.obj [], "result = 1", "1.0.0", 5⟩)],
     [], []⟩
    "echo" "result = 2" rfl (by decide) rfl (by decide) (by decide)

/-- C5: a request whose method is neither a static handler nor a registered
dynamic skill is answered immediately with error code -32601 (Method Not
Found): no task is ever enqueued on the host scheduler (the outcome is
`immediate`, produced before `bpy.app.timers.register` is reached), and
resolution hands back the registry state unchanged. -/
theorem unknown_method_not_found
    (parse : String → Option Json) (line : String) (st : RegistryState)
    (request : Json) (m : String)
    (hparse : parse line = some request)
    (hm : jget request "method" = some (Json.str m))
    (hstatic : m ∉ handlerNames)
    (hdyn : get_dynamic_skill st m = none) :
    process_request parse line st
      = (.immediate (mkErrorResponse ((jget request "id").getD Json.null)
          (-32601) ("Method not found: " ++ m)), st)
    ∧ errorCodeOf (mkErrorResponse ((jget request "id").getD Json.null)
          (-32601) ("Method not found: " ++ m)) = some (-32601) := by
  constructor
  · simp [process_request, hparse, hm, hstatic, hdyn]
  · rfl

/-- `json.loads` oracle for the C5 witness: one well-formed request line
naming an unknown method. -/
def unknownMethodParse : String → Option Json := fun s =>
  if s = "req5" then
    some (Json.obj [("method", Json.str "no_such_method"),
                    ("id", Json.str "1"), ("params", Json.obj [])])
  else none

/-- Witness for C5 at the concrete unknown-method request over the empty
store. -/
theorem unknown_method_not_found_witness :
    process_request unknownMethodParse "req5" ⟨true, [], [], []⟩
      = (.immediate (mkErrorResponse
          ((jget (Json.obj [("method", Json.str "no_such_method"),
              ("id", Json.str "1"), ("params", Json.obj [])]) "id").getD
            Json.null)
          (-32601) ("Method not found: " ++ "no_such_method")),
         ⟨true, [], [], []⟩)
    ∧ errorCodeOf (mkErrorResponse
          ((jget (Json.obj [("method", Json.str "no_such_method"),
              ("id", Json.str "1"), ("params", Json.obj [])]) "id").getD
            Json.null)
          (-32601) ("Method not found: " ++ "no_such_method"))
        = some (-32601) :=
  unknown_method_not_found unknownMethodParse "req5" ⟨true, [], [], []⟩
    (Json.obj [("method", Json.str "no_such_method"),
               ("id", Json.str "1"), ("params", Json.obj [])])
    "no_such_method" rfl rfl (by decide) rfl

/-- C6: a received line that is not valid JSON is answered with the Parse
Error envelope, whose `error.code` is -32700, and the connection loop
carries on: the following lines are processed exactly as they would have
been, against the same state. -/
theorem parse_error_keeps_connection_usable
    (parse : String → Option Json)
    (bridge : Json → TaskSpec → RegistryState → Json × RegistryState)
    (badLine : String) (rest : List String) (st : RegistryState)
    (hbad : parse badLine = none) (hws : hasContent badLine = true) :
    handle_lines (process_line parse bridge) (badLine :: rest) st
      = (mkErrorResponse Json.null (-32700) "Parse error"
          :: (handle_lines (process_line parse bridge) rest st).1,
         (handle_lines (process_line parse bridge) rest st).2)
    ∧ errorCodeOf (mkErrorResponse Json.null (-32700) "Parse error")
        = some (-32700) := by
  constructor
  · simp [handle_lines, hws, process_line, process_request, hbad]
  · rfl

/-- A bridge stub for the C6 witness (never reached: both witness lines fail
to parse). -/
def nullBridge : Json → TaskSpec → RegistryState → Json × RegistryState :=
  fun rid _ st => (mkResultResponse rid Json.null, st)

/-- `json.loads` oracle for the C6 witness: nothing parses. -/
def rejectAllParse : String → Option Json := fun _ => none

/-- Witness for C6: two unparsable lines yield two Parse Error responses,
the second line still being processed after the first failed. -/
theorem parse_error_keeps_connection_usable_witness :
    handle_lines (process_line rejectAllParse nullBridge)
        ("not json" :: ["also not json"]) ⟨true, [], [], []⟩
      = (mkErrorResponse Json.null (-32700) "Parse error"
          :: (handle_lines (process_line rejectAllParse nullBridge)
                ["also not json"] ⟨true, [], [], []⟩).1,
         (handle_lines (process_line rejectAllParse nullBridge)
            ["also not json"] ⟨true, [], [], []⟩).2)
    ∧ errorCodeOf (mkErrorResponse Json.null (-32700) "Parse error")
        = some (-32700) :=
  parse_error_keeps_connection_usable rejectAllParse nullBridge
    "not json" ["also not json"] ⟨true, [], [], []⟩ rfl (by decide)

/-- C7: registering a skill named `"echo"` whose code copies `params` into
`result` and then executing it once with no caller returns exactly the
supplied params, and leaves the `"echo"` statistics row with
`direct_calls = 1`, `indirect_calls = 0` (and the elapsed time charged);
and for any skill whose code binds no `result`, execution returns the
generic success marker `{"success": true}` instead. -/
theorem echo_skill_first_call_statistics
    (execSem : ExecSem) (echoCode : String) (p : Json) (st : RegistryState)
    (elapsed_ms : Nat)
    (hcode : echoCode ≠ "")
    (hecho : execSem echoCode p = .ok (some p))
    (hfresh : alookup st.skill_statistics "echo" = none) :
    (∃ resp st1 skill,
      handle_register_skill
          ⟨some "echo", none, none, none, some echoCode, none⟩ st
        = .ok (resp, st1)
      ∧ get_dynamic_skill st1 "echo" = some skill
      ∧ (execute_dynamic_skill execSem skill p none elapsed_ms st1).1 = .ok p
      ∧ alookup (execute_dynamic_skill execSem skill p none elapsed_ms
          st1).2.skill_statistics "echo" = some ⟨false, 1, 0, elapsed_ms⟩)
    ∧ (∀ (sk : Skill) (q : Json) (c : Option String) (e : Nat)
        (st' : RegistryState), execSem sk.code q = .ok none →
        (execute_dynamic_skill execSem sk q c e st').1 = .ok genericSuccess) := by
  constructor
  · refine ⟨Json.obj [("success", Json.bool true), ("name", Json.str "echo"),
        ("category", Json.str "standard"), ("version", Json.str "1.0.0"),
        ("message", Json.str ("Skill \x27" ++ "echo" ++ "\x27 registered"))],
      { st with
        db_exists := true,
        dynamic_skills := (aupsert st.dynamic_skills "echo"
          ⟨"standard", "", Json.obj [], echoCode, "1.0.0",
           ((alookup st.dynamic_skills "echo").map SkillRow.call_count).getD 0⟩
          (fun _ =>
            ⟨"standard", "", Json.obj [], echoCode, "1.0.0",
             ((alookup st.dynamic_skills "echo").map SkillRow.call_count).getD 0⟩)) },
      ⟨"echo", "standard", "", Json.obj [], echoCode, "1.0.0"⟩,
      ?_, ?_, ?_, ?_⟩
    · simp only [handle_register_skill, Option.getD_some, Option.getD_none]
      rw [if_neg (by decide : ¬("echo" : String) = ""), if_neg hcode,
        if_neg (not_not_intro (by decide :
          ("standard" : String) ∈ validCategories))]
      rfl
    · simp only [get_dynamic_skill, Bool.not_true]
      rw [alookup_aupsert_self]
      cases alookup st.dynamic_skills "echo" <;> rfl
    · simp [execute_dynamic_skill, hecho]
    · simp only [execute_dynamic_skill, hecho]
      rw [alookup_aupsert_self]
      have hst1 : alookup
          ({ st with
             db_exists := true,
             dynamic_skills := (aupsert st.dynamic_skills "echo"
               ⟨"standard", "", Json.obj [], echoCode, "1.0.0",
                ((alookup st.dynamic_skills "echo").map SkillRow.call_count).getD 0⟩
               (fun _ =>
                 ⟨"standard", "", Json.obj [], echoCode, "1.0.0",
                  ((alookup st.dynamic_skills "echo").map
                    SkillRow.call_count).getD 0⟩)) } :
            RegistryState).skill_statistics "echo" = none := hfresh
      rw [hst1]
      rfl
  · intro sk q c e st' h
    simp [execute_dynamic_skill, h]

/-- Execution oracle for the C7 witness: the code text
`"result = dict(params)"` copies `params` into `result`; everything else
binds no result. -/
def echoSem : ExecSem := fun code q =>
  if code = "result = dict(params)" then .ok (some q) else .ok none

/-- Witness for C7: register-then-invoke of the concrete echo skill with
params `{"x": 1}` on the empty store, plus the generic-success default for
a no-result skill. -/
theorem echo_skill_first_call_statistics_witness :
    (∃ resp st1 skill,
      handle_register_skill
          ⟨some "echo", none, none, none, some "result = dict(params)", none⟩
          ⟨true, [], [], []⟩
        = .ok (resp, st1)
      ∧ get_dynamic_skill st1 "echo" = some skill
      ∧ (execute_dynamic_skill echoSem skill (Json.obj [("x", Json.num 1)])
          none 4 st1).1 = .ok (Json.obj [("x", Json.num 1)])
      ∧ alookup (execute_dynamic_skill echoSem skill
          (Json.obj [("x", Json.num 1)]) none 4 st1).2.skill_statistics "echo"
            = some ⟨false, 1, 0, 4⟩)
    ∧ (∀ (sk : Skill) (q : Json) (c : Option String) (e : Nat)
        (st' : RegistryState), echoSem sk.code q = .ok none →
        (execute_dynamic_skill echoSem sk q c e st').1 = .ok genericSuccess) :=
  echo_skill_first_call_statistics echoSem "result = dict(params)"
    (Json.obj [("x", Json.num 1)]) ⟨true, [], [], []⟩ 4
    (by decide) rfl rfl

/-- C8: a received line consisting only of whitespace produces no response
at all — the loop silently continues with the remaining lines and the
state untouched — and over any line list the number of responses equals
the number of lines with non-whitespace content. -/
theorem whitespace_lines_single_response_per_content_line
    {σ : Type} (process : String → σ → Json × σ) (ws : String)
    (rest : List String) (st : σ) (lines : List String)
    (hws : hasContent ws = false) :
    handle_lines process (ws :: rest) st = handle_lines process rest st
    ∧ (handle_lines process lines st).1.length
        = (lines.filter (fun l => hasContent l)).length := by
  constructor
  · simp [handle_lines, hws]
  · induction lines generalizing st with
    | nil => simp [handle_lines]
    | cons l ls ih =>
      by_cases hl : hasContent l
      · simp [handle_lines, hl, ih]
      · simp [handle_lines, hl, ih]

/-- A one-response-per-line process stub for the C8 witness. -/
def constProcess : String → Nat → Json × Nat :=
  fun _ n => (mkResultResponse Json.null Json.null, n + 1)

/-- Witness for C8: an empty line and a tab-space line produce no
responses; of the four lines `["a", "", "b", "\t "]` exactly the two with
content are answered. -/
theorem whitespace_lines_single_response_witness :
    handle_lines constProcess ("" :: ["a", "", "b", "\t "]) 0
        = handle_lines constProcess ["a", "", "b", "\t "] 0
    ∧ (handle_lines constProcess ["a", "", "b", "\t "] 0).1.length
        = (["a", "", "b", "\t "].filter (fun l => hasContent l)).length :=
  whitespace_lines_single_response_per_content_line constProcess ""
    ["a", "", "b", "\t "] 0 ["a", "", "b", "\t "] (by decide)

/-- C9: unregistering a registered dynamic skill deletes only its
definition row: the statistics table and the call-graph table are
untouched, so `get_skill_statistics` and `get_call_graph` return exactly
what they returned before, for every filter. -/
theorem unregister_preserves_statistics_and_graph
    (st : RegistryState) (n : String) (row : SkillRow)
    (hdb : st.db_exists = true) (hn : n ≠ "")
    (hrow : alookup st.dynamic_skills n = some row) :
    ∃ resp st', handle_unregister_skill (some n) st = .ok (resp, st')
      ∧ st'.skill_statistics = st.skill_statistics
      ∧ st'.skill_call_graph = st.skill_call_graph
      ∧ (∀ f, handle_get_skill_statistics f st'
          = handle_get_skill_statistics f st)
      ∧ (∀ cf ef, handle_get_call_graph cf ef st'
          = handle_get_call_graph cf ef st) := by
  refine ⟨Json.obj [("success", Json.bool true), ("name", Json.str n),
      ("message", Json.str ("Skill \x27" ++ n ++ "\x27 unregistered"))],
    { st with dynamic_skills := (aremove st.dynamic_skills n) },
    ?_, rfl, rfl, fun f => rfl, fun cf ef => rfl⟩
  simp only [handle_unregister_skill, Option.getD_some]
  rw [if_neg hn, hdb, hrow]
  rfl

/-- A store with one registered skill, a populated statistics row for it
and a call-graph edge in which it appears as callee, for the C9 witness. -/
def unregStore : RegistryState :=
  ⟨true,
   [("echo", ⟨"standard", "", Json.obj [], "result = 1", "1.0.0", 3⟩)],
   [("echo", ⟨false, 2, 1, 40⟩), ("ping", ⟨true, 7, 0, 9⟩)],
   [(("ping", "echo"), 1)]⟩

/-- Witness for C9: unregistering `"echo"` from the populated store leaves
statistics and call graph intact. -/
theorem unregister_preserves_statistics_and_graph_witness :
    ∃ resp st', handle_unregister_skill (some "echo") unregStore
        = .ok (resp, st')
      ∧ st'.skill_statistics = unregStore.skill_statistics
      ∧ st'.skill_call_graph = unregStore.skill_call_graph
      ∧ (∀ f, handle_get_skill_statistics f st'
          = handle_get_skill_statistics f unregStore)
      ∧ (∀ cf ef, handle_get_call_graph cf ef st'
          = handle_get_call_graph cf ef unregStore) :=
  unregister_preserves_statistics_and_graph unregStore "echo"
    ⟨"standard", "", Json.obj [], "result = 1", "1.0.0", 3⟩
    rfl (by decide) rfl

/-- C10: only `name` and `code` are required by `handle_register_skill`;
with every other key absent the registration succeeds and stores
`category = "standard"`, `description = ""`, `parameters = {}` and
`version = "1.0.0"`. -/
theorem register_only_name_and_code_required
    (st : RegistryState) (n c : String) (hn : n ≠ "") (hc : c ≠ "") :
    ∃ resp st',
      handle_register_skill ⟨some n, none, none, none, some c, none⟩ st
        = .ok (resp, st')
      ∧ alookup st'.dynamic_skills n = some
          ⟨"standard", "", Json.obj [], c, "1.0.0",
           ((alookup st.dynamic_skills n).map SkillRow.call_count).getD 0⟩ := by
  refine ⟨Json.obj [("success", Json.bool true), ("name", Json.str n),
      ("category", Json.str "standard"), ("version", Json.str "1.0.0"),
      ("message", Json.str ("Skill \x27" ++ n ++ "\x27 registered"))],
    { st with
      db_exists := true,
      dynamic_skills := (aupsert st.dynamic_skills n
        ⟨"standard", "", Json.obj [], c, "1.0.0",
         ((alookup st.dynamic_skills n).map SkillRow.call_count).getD 0⟩
        (fun _ =>
          ⟨"standard", "", Json.obj [], c, "1.0.0",
           ((alookup st.dynamic_skills n).map SkillRow.call_count).getD 0⟩)) },
    ?_, ?_⟩
  · simp only [handle_register_skill, Option.getD_some, Option.getD_none]
    rw [if_neg hn, if_neg hc,
      if_neg (not_not_intro (by decide :
        ("standard" : String) ∈ validCategories))]
    rfl
  · rw [alookup_aupsert_self]
    cases alookup st.dynamic_skills n <;> rfl

/-- Witness for C10: registering with only a name and a code on the empty
store succeeds with the documented defaults and a zero counter. -/
theorem register_only_name_and_code_required_witness :
    ∃ resp st',
      handle_register_skill
          ⟨some "solo", none, none, none, some "result = 42", none⟩
          ⟨true, [], [], []⟩
        = .ok (resp, st')
      ∧ alookup st'.dynamic_skills "solo" = some
          ⟨"standard", "", Json.obj [], "result = 42", "1.0.0", 0⟩ :=
  register_only_name_and_code_required ⟨true, [], [], []⟩ "solo"
    "result = 42" (by decide) (by decide)

end BlenderAgent
